import Mathlib

/-!
Shallow embedding of the rapid_chain coordinator (src/coordinator.go and
src/main.go) and proofs about the claims of its specification.

Modelling conventions:
* Go machine integers in this file are small non-negative quantities (node
  counts, committee counts, byte values); they are embedded as `Nat`, with
  the two places where Go performs a division that can panic (`n / checkTotalF`
  and slice indexing `committees[c]`) made explicit as `Option` / a `panic`
  outcome.  `int64`-typed values parsed from wire payloads are embedded as
  `Int` with explicit two's-complement conversion.
* `time.Time` values are embedded as `Nat`; the Go zero `time.Time` (the value
  `IsZero` tests for, used as the "unset" sentinel by the trackers) is `0`.
* 32-byte identifiers (`[32]byte`) are embedded as `List Nat` of byte values.
* CSV formatting of the six result files is out of scope per the spec
  (§1: "on-disk result-file formatting" is external); the durable sinks are
  modelled as a list of (sink index, written record) pairs.
-/

namespace RapidChain

/-! ## Committee assignment (coordinator.go, `coordinator`, lines 312-348) -/

/-- Go: `if c%2 == 0 { c_div = 3 } else { c_div = 1 }` (line 330-334). -/
def cDiv (c : Nat) : Nat := if c % 2 = 0 then 3 else 1

/-- Go lines 338-342: `f := (t_npm / (6 / c_div)); if t_npm%(6/c_div) == 0 { f-- }`.
`f` is a Go `int`, so it is embedded as `Int` (it is decremented). -/
def goF (t_npm c : Nat) : Int :=
  let d := 6 / cDiv c
  if t_npm % d = 0 then ((t_npm / d : Nat) : Int) - 1 else ((t_npm / d : Nat) : Int)

/-- Go lines 343-347: `if t_npm == 0 || i%t_npm < f { IsHonest = false } else { IsHonest = true }`. -/
def goIsHonest (i t_npm c : Nat) : Bool :=
  !(t_npm == 0 || decide (((i % t_npm : Nat) : Int) < goF t_npm c))

/--
One iteration of the assignment loop (lines 315-348) for node index `i`,
given the current committee cursor `c`.  Returns the committee index assigned
to node `i`, its honesty flag, and the new cursor; `none` models the Go
runtime panic of `committees[c]` when the cursor runs past `m-1`
(the committee id slice has length `m`; ids are represented by their index).
-/
def assignNode (n npm rest m c i : Nat) : Option ((Nat × Bool) × Nat) :=
  if i ≠ 0 ∧ i % npm = 0 then
    if i ≠ n - rest then
      if c + 1 < m then some ((c + 1, goIsHonest i npm (c + 1)), c + 1) else none
    else
      if c < m then some ((c, goIsHonest i (npm + rest) c), c) else none
  else
    if c < m then some ((c, goIsHonest i npm c), c) else none

/-- The assignment loop, structurally recursing on the remaining node count
(`fuel = n - i`).  Produces the list of (committee index, IsHonest) pairs in
node order, or `none` if the loop panics. -/
def assignLoop (n npm rest m : Nat) : Nat → Nat → Nat → Option (List (Nat × Bool))
  | _, _, 0 => some []
  | c, i, fuel + 1 =>
    match assignNode n npm rest m c i with
    | none => none
    | some (e, c') =>
      (assignLoop n npm rest m c' (i + 1) fuel).map (fun l => e :: l)

/-- The whole committee-assignment pass of `coordinator` (lines 312-348), on
an (already shuffled) list of `n` nodes and `m` committees, with
`npm := n / m` and `rest := n % m` exactly as in Go. -/
def coordinatorAssign (n m : Nat) : Option (List (Nat × Bool)) :=
  assignLoop n (n / m) (n % m) m 0 0 n

/-- Number of members the assignment gave to committee `c`. -/
def commCount (out : List (Nat × Bool)) (c : Nat) : Nat :=
  out.countP (fun e => e.1 == c)

/-- Number of adversarial (IsHonest = false) members of committee `c`. -/
def advCount (out : List (Nat × Bool)) (c : Nat) : Nat :=
  out.countP (fun e => e.1 == c && !e.2)

/-- Total adversary count over all committees (`checkTotalF` recomputed). -/
def totalAdvOf (n m : Nat) : Option Nat :=
  (coordinatorAssign n m).map (fun out => out.countP (fun e => !e.2))

/-! Closed-form description of the loop, proved equal to it below:
node `j` lands in committee `min (j / npm) (m-1)` and its honesty is
computed from the block size `tnpmOf` the loop used at index `j`. -/

/-- Committee index the loop assigns to node `j` (for `rest ≤ npm`). -/
def committeeOfIdx (npm m j : Nat) : Nat := min (j / npm) (m - 1)

/-- The `t_npm` value the loop computes at node index `j`. -/
def tnpmOf (n npm rest j : Nat) : Nat :=
  if j ≠ 0 ∧ j % npm = 0 ∧ j = n - rest then npm + rest else npm

/-- The (committee, IsHonest) pair the loop produces for node `j`. -/
def entryOf (n npm rest m j : Nat) : Nat × Bool :=
  (committeeOfIdx npm m j,
   goIsHonest j (tnpmOf n npm rest j) (committeeOfIdx npm m j))

/-! ## Post-assignment verification (coordinator.go, lines 350-389) -/

/-- Outcome of the double-check/verification code after assignment:
`ok` (falls through), `fatal` (a `log.Fatal` fired), `panic` (a Go runtime
panic: slice index out of range or integer division by zero). -/
inductive VerifyResult where
  | ok : VerifyResult
  | fatal : String → VerifyResult
  | panic : VerifyResult
deriving DecidableEq, Repr

/--
The recount walk (lines 350-364): walks the tagged node list, bumping
`iCommittee` whenever the committee id changes, and accumulates per-committee
member and adversary counts in a length-`m` array
(`committeeInfos := make([]committeeInfo, flagArgs.m)`).
Committee ids are represented by their index; `lastCommittee` starts at
`committees[0]`, i.e. index `0`.  `none` models the Go panic when
`committeeInfos[iCommittee]` is indexed out of range.
-/
def recount (out : List (Nat × Bool)) (m : Nat) : Option (List (Nat × Nat)) :=
  (out.foldl
    (fun st e => do
      let (last, iC, infos) ← st
      let li : Nat × Nat := if e.1 ≠ last then (e.1, iC + 1) else (last, iC)
      if h : li.2 < infos.length then
        let p := infos.get ⟨li.2, h⟩
        some (li.1, li.2, infos.set li.2 (p.1 + 1, p.2 + if e.2 then 0 else 1))
      else none)
    (some (0, 0, List.replicate m (0, 0)))).map (fun st => st.2.2)

/-- `int(math.Ceil(float64(sz) / float64(committeeF)))` for naturals
(exact for the magnitudes involved, `committeeF > 0`). -/
def ceilDiv (sz committeeF : Nat) : Nat := (sz + committeeF - 1) / committeeF

/--
The per-committee invariant loop (lines 372-383): for each committee, checks
the size is `npm` or `npm+rest` and the adversary count is strictly below
`ceil(size/committeeF)`, accumulating `checkTotalF`; the first violation is a
`log.Fatal` (modelled as `Except.error` with the Go message). -/
def checkCommittees (npm rest committeeF : Nat) : List (Nat × Nat) → Except String Nat
  | [] => Except.ok 0
  | info :: rest' =>
    if info.1 ≠ npm ∧ info.1 ≠ npm + rest then
      Except.error "Number of nodes in committee not right"
    else if ceilDiv info.1 committeeF ≤ info.2 then
      Except.error "Comitte has too many adversaries"
    else (checkCommittees npm rest committeeF rest').map (fun t => info.2 + t)

/--
The full assignment + verification pipeline with the aggregate check of
lines 385-387:
`if flagArgs.n/flagArgs.m != 1 && int(flagArgs.n)/checkTotalF < 1/int(flagArgs.totalF)`.
Go evaluates `n/checkTotalF` first, so `checkTotalF = 0` is an integer
division-by-zero runtime panic (`VerifyResult.panic`), as is `totalF = 0`
in `1/totalF`.
-/
def coordinatorVerify (n m totalF committeeF : Nat) : VerifyResult :=
  match coordinatorAssign n m with
  | none => VerifyResult.panic
  | some out =>
    match recount out m with
    | none => VerifyResult.panic
    | some infos =>
      match checkCommittees (n / m) (n % m) committeeF infos with
      | Except.error e => VerifyResult.fatal e
      | Except.ok checkTotalF =>
        if n / m ≠ 1 then
          if checkTotalF = 0 then VerifyResult.panic
          else if totalF = 0 then VerifyResult.panic
          else if n / checkTotalF < 1 / totalF then
            VerifyResult.fatal "There was too many adversaries in total"
          else VerifyResult.ok
        else VerifyResult.ok

/-! ## Route-tx tracker (coordinator.go, `routetxresults`, lines 33-102) -/

/-- `routetxresults` (lines 34-39).  `start`/`endT` are `time.Time` fields
whose Go zero value (the `IsZero` sentinel meaning "unset") is `0`; the
`committees` map is an association list id ↦ first-arrival time.  The field
`end` of the Go struct is called `endT` (`end` is a Lean keyword). -/
structure Routetxresults where
  start : Nat := 0
  endT : Nat := 0
  committees : List (List Nat × Nat) := []
deriving DecidableEq, Repr

/-- `addStart` (lines 62-71): sets the start timestamp only if `start.IsZero()`,
returning whether this call was the authoritative write. -/
def Routetxresults.addStart (r : Routetxresults) (tim : Nat) : Routetxresults × Bool :=
  if r.start = 0 then ({ r with start := tim }, true) else (r, false)

/-- `addEnd` (lines 73-82): same first-write-wins discipline for the end field. -/
def Routetxresults.addEnd (r : Routetxresults) (tim : Nat) : Routetxresults × Bool :=
  if r.endT = 0 then ({ r with endT := tim }, true) else (r, false)

/-- `add` (lines 49-60): records a committee hop timestamp iff the committee id
is not present yet. -/
def Routetxresults.add (r : Routetxresults) (cId : List Nat) (tim : Nat) :
    Routetxresults × Bool :=
  match r.committees.lookup cId with
  | some _ => (r, false)
  | none => ({ r with committees := r.committees ++ [(cId, tim)] }, true)

/-! ## IDA-gossip tracker (coordinator.go, lines 104-143) -/

/-- `IDAGossipResults` (lines 126-130). -/
structure IDAGossipResults where
  start : Nat := 0
  reconstructed : List Nat := []
deriving DecidableEq, Repr

/-- `addReconstructed` (lines 132-143): appends the timestamp unconditionally
and reports whether it was the first append. -/
def IDAGossipResults.addReconstructed (r : IDAGossipResults) (tim : Nat) :
    IDAGossipResults × Bool :=
  if r.reconstructed.length = 0 then ({ r with reconstructed := [tim] }, true)
  else ({ r with reconstructed := r.reconstructed ++ [tim] }, false)

/-! ## Debug/stats dispatcher (coordinator.go, lines 450-574) -/

/-- `toByte32` (helper defined outside src/): 32-byte ids are content digests
(spec §3); the conversion keeps the first 32 bytes. -/
def toByte32 (b : List Nat) : List Nat := b.take 32

/-- Little-endian unsigned 64-bit decode (`binary.LittleEndian.Uint64`). -/
def leU64 (bs : List Nat) : Nat := bs.foldr (fun b acc => b + 256 * acc) 0

/-- Go `int64(u64value)`: two's-complement reinterpretation. -/
def toInt64 (v : Nat) : Int :=
  if v < 2 ^ 63 then (v : Int) else (v : Int) - 2 ^ 64

/-- A record written to one of the six durable sinks (`files[0..5]`).
The CSV rendering is out of scope (spec §1); the written data is kept. -/
inductive SinkEntry where
  | intLine : Int → SinkEntry
  | route : Routetxresults → SinkEntry
  | ida : IDAGossipResults → SinkEntry
  | acceptFail : List Nat → List Nat → Nat → Int → Int → SinkEntry
deriving DecidableEq, Repr

/-- Payload of a `Msg` envelope, by the Go dynamic type the dispatcher
asserts: `[32]byte`, `string`, `FinalBlock`, `time.Duration`,
`ByteArrayAndTimestamp`. -/
inductive Payload where
  | id32 : List Nat → Payload
  | str : String → Payload
  | block : Payload
  | dur : Int → Payload
  | bat : List Nat → Nat → Payload

/-- A tagged `Msg` envelope. -/
structure Msg where
  typ : String
  payload : Payload

/-- State touched by `coordinatorDebugStatsHandleConnection`: the two id-keyed
tracker maps, the sink writes so far (in order, tagged with sink index), and
the count of blocks forwarded to `finalBlockChan`. -/
structure DispState where
  routeMap : List Nat → Option Routetxresults
  idaMap : List Nat → Option IDAGossipResults
  sinks : List (Nat × SinkEntry)
  blockChan : Nat

/-- `routetxmap.add` / `IDAGossipResultsMap.add` followed by `get`: create the
record iff absent (the returned map), so the subsequent `get` is `some`. -/
def mapEnsure {A : Type} (mp : List Nat → Option A) (k : List Nat) (fresh : A) :
    List Nat → Option A :=
  fun k' => if k' = k then some ((mp k).getD fresh) else mp k'

/--
`coordinatorDebugStatsHandleConnection` (lines 450-574), one message:
dispatch on the envelope tag.  `none` models `errFatal`/`notOkErr`
(process-terminating): failed type assertions, a `consensus_accept_fail`
payload whose length is not 88, and — via the `default` arm — any
unrecognized tag.  Note the handled transaction-arrival tag is the literal
`"transaction_recieved"` of line 499.
-/
def dispatch (st : DispState) (msg : Msg) : Option DispState :=
  match msg.typ, msg.payload with
  | "IDASuccess", Payload.id32 _ => some st
  | "consensus", Payload.str _ => some st
  | "finalblock", Payload.block => some { st with blockChan := st.blockChan + 1 }
  | "pocverify", Payload.dur d => some { st with sinks := st.sinks ++ [(1, SinkEntry.intLine d)] }
  | "pocadd", Payload.dur d => some { st with sinks := st.sinks ++ [(2, SinkEntry.intLine d)] }
  | "routetx", Payload.bat b t =>
    let id := toByte32 b
    let mp := mapEnsure st.routeMap id {}
    let r := (mp id).getD {}
    some { st with routeMap := fun k => if k = id then some (r.addStart t).1 else mp k }
  | "find_node", Payload.bat b t =>
    let txid := toByte32 (b.take 32)
    let cid := toByte32 (b.drop 32)
    let mp := mapEnsure st.routeMap txid {}
    let r := (mp txid).getD {}
    some { st with routeMap := fun k => if k = txid then some (r.add cid t).1 else mp k }
  | "transaction_recieved", Payload.bat b t =>
    let id := toByte32 b
    let mp := mapEnsure st.routeMap id {}
    let r := (mp id).getD {}
    let re := r.addEnd t
    let st' := { st with routeMap := fun k => if k = id then some re.1 else mp k }
    if re.2 then some { st' with sinks := st'.sinks ++ [(3, SinkEntry.route re.1)] }
    else some st'
  | "start_ida_gossip", Payload.bat b t =>
    let id := toByte32 b
    let mp := mapEnsure st.idaMap id {}
    let r := (mp id).getD {}
    some { st with idaMap := fun k => if k = id then some { r with start := t } else mp k }
  | "reconstructed_ida_gossip", Payload.bat b t =>
    let id := toByte32 b
    let mp := mapEnsure st.idaMap id {}
    let r := (mp id).getD {}
    let re := r.addReconstructed t
    let st' := { st with idaMap := fun k => if k = id then some re.1 else mp k }
    if re.2 then some { st' with sinks := st'.sinks ++ [(4, SinkEntry.ida re.1)] }
    else some st'
  | "consensus_accept_fail", Payload.bat b _ =>
    if b.length = 88 then
      some { st with sinks := st.sinks ++
        [(5, SinkEntry.acceptFail (b.take 32) ((b.drop 32).take 32)
            (leU64 ((b.drop 64).take 8))
            (toInt64 (leU64 ((b.drop 72).take 8)))
            (toInt64 (leU64 ((b.drop 80).take 8))))] }
    else none
  | _, _ => none

/-- The empty dispatcher state (fresh maps, no writes). -/
def initState : DispState :=
  { routeMap := fun _ => none, idaMap := fun _ => none, sinks := [], blockChan := 0 }

/-- A fresh route-tx record (`new(routetxresults)`: all fields zero). -/
def emptyRoute : Routetxresults := {}

/-- A fresh IDA-gossip record (`new(IDAGossipResults)`: all fields zero). -/
def emptyIda : IDAGossipResults := {}

/-! ## Shuffle and the full assignment pass (lines 299-348) -/

/-- Bounds-checked array swap (`swap` closure of `rand.Shuffle`; always in
bounds as called). -/
def swapA {A : Type} (a : Array A) (i j : Nat) : Array A :=
  if h : i < a.size then
    if h2 : j < a.size then a.swap ⟨i, h⟩ ⟨j, h2⟩ else a
  else a

/-- Fisher-Yates loop of `rand.Shuffle`: for `i` from `n-1` down to `1`,
swap position `i` with `rnd i % (i+1)` — `rnd i` is the PRNG draw consumed at
iteration `i`, reduced to `Intn(i+1)`'s range. -/
def shuffleAux {A : Type} (rnd : Nat → Nat) (a : Array A) : Nat → Array A
  | 0 => a
  | i + 1 => shuffleAux rnd (swapA a (i + 1) (rnd (i + 1) % (i + 2))) i

/-- `rand.Shuffle(len(nodeInfos), ...)` (line 301) on a node list. -/
def shuffle {A : Type} (rnd : Nat → Nat) (l : List A) : List A :=
  (shuffleAux rnd l.toArray (l.length - 1)).toList

/-- Shuffle followed by the committee-assignment pass: each node of the input
list tagged with its committee index and honesty flag.  The PRNG draw stream
`rnd` is the sole source of randomness (it is fully determined by the seed
passed to `rand.Seed` immediately before the shuffle, line 300). -/
def coordinatorRun {A : Type} (rnd : Nat → Nat) (nodes : List A) (m : Nat) :
    Option (List (A × Nat × Bool)) :=
  let shuffled := shuffle rnd nodes
  (coordinatorAssign shuffled.length m).map (fun tags => shuffled.zip tags)

/-! ## Closed-form characterization of the assignment loop -/

theorem pred_div_eq_of_mod_ne (npm i : Nat) (hnpm : 0 < npm) (h : i % npm ≠ 0) :
    (i - 1) / npm = i / npm := by
  have hd := Nat.div_add_mod i npm
  have hlt : i % npm < npm := Nat.mod_lt i hnpm
  have h1 : i - 1 = npm * (i / npm) + (i % npm - 1) := by omega
  rw [h1, Nat.mul_add_div hnpm,
    Nat.div_eq_of_lt (show i % npm - 1 < npm by omega), Nat.add_zero]

theorem pred_div_add_one_of_dvd (npm i : Nat) (hnpm : 0 < npm) (hi : 0 < i)
    (h : i % npm = 0) : (i - 1) / npm + 1 = i / npm := by
  have hd := Nat.div_add_mod i npm
  obtain ⟨q, hq⟩ : ∃ q, i / npm = q + 1 := by
    rcases Nat.eq_zero_or_pos (i / npm) with h0 | h0
    · rw [h0, Nat.mul_zero] at hd
      omega
    · exact ⟨i / npm - 1, by omega⟩
  rw [hq] at hd
  have hmul : npm * (q + 1) = npm * q + npm := Nat.mul_succ npm q
  have h1 : i - 1 = npm * q + (npm - 1) := by omega
  rw [h1, Nat.mul_add_div hnpm,
    Nat.div_eq_of_lt (show npm - 1 < npm by omega), Nat.add_zero, hq]

theorem assignNode_char (n m npm rest : Nat) (hm : 0 < m) (hnpm : 0 < npm)
    (hr : rest ≤ npm) (hn : n = m * npm + rest) (i : Nat) (hi : i < n) :
    assignNode n npm rest m (min ((i - 1) / npm) (m - 1)) i =
      some (entryOf n npm rest m i, committeeOfIdx npm m i) := by
  have hP : n - rest = m * npm := by omega
  by_cases h0 : i = 0
  · subst h0
    have hA : ¬((0 : Nat) ≠ 0 ∧ 0 % npm = 0) := by simp
    have hT : ¬((0 : Nat) ≠ 0 ∧ 0 % npm = 0 ∧ 0 = n - rest) := by simp
    have hmin : min ((0 - 1) / npm) (m - 1) = 0 := by
      rw [Nat.zero_sub, Nat.zero_div, Nat.zero_min]
    have hcomm : committeeOfIdx npm m 0 = 0 := by
      unfold committeeOfIdx
      rw [Nat.zero_div, Nat.zero_min]
    have he : entryOf n npm rest m 0 = (0, goIsHonest 0 npm 0) := by
      unfold entryOf tnpmOf
      rw [if_neg hT, hcomm]
    rw [assignNode, if_neg hA, hmin, if_pos hm, he, hcomm]
  · by_cases hmod : i % npm = 0
    · by_cases hlast : i = n - rest
      · -- i = m * npm: the remainder-absorbing node of the last committee
        have him : i = m * npm := by omega
        obtain ⟨m', rfl⟩ : ∃ m', m = m' + 1 := ⟨m - 1, by omega⟩
        have hdiv : i / npm = m' + 1 := by
          rw [him, Nat.mul_div_cancel _ hnpm]
        have hpred : (i - 1) / npm = m' := by
          have hmm : (m' + 1) * npm = npm * m' + npm := by ring
          have h1 : i - 1 = npm * m' + (npm - 1) := by omega
          rw [h1, Nat.mul_add_div hnpm,
            Nat.div_eq_of_lt (show npm - 1 < npm by omega), Nat.add_zero]
        have hcomm : committeeOfIdx npm (m' + 1) i = m' := by
          unfold committeeOfIdx
          rw [hdiv]
          omega
        have hmin : min ((i - 1) / npm) (m' + 1 - 1) = m' := by
          rw [hpred]
          omega
        have he : entryOf n npm rest (m' + 1) i = (m', goIsHonest i (npm + rest) m') := by
          unfold entryOf tnpmOf
          rw [if_pos ⟨h0, hmod, hlast⟩, hcomm]
        rw [assignNode, if_pos ⟨h0, hmod⟩, if_neg (show ¬i ≠ n - rest by omega),
          hmin, if_pos (show m' < m' + 1 by omega), he, hcomm]
      · -- interior committee boundary: the cursor advances
        have hex : ∃ k, i = npm * k := by
          refine ⟨i / npm, ?_⟩
          have := Nat.div_add_mod i npm
          omega
        obtain ⟨k, hk⟩ := hex
        have hk1 : 1 ≤ k := by
          rcases Nat.eq_zero_or_pos k with h | h
          · rw [h, Nat.mul_zero] at hk
            omega
          · exact h
        have hkm : k ≤ m - 1 := by
          have hne : k ≠ m := by
            intro he
            apply hlast
            rw [hP, hk, he, Nat.mul_comm]
          have hlt : npm * k < npm * (m + 1) := by
            have hmm : npm * (m + 1) = m * npm + npm := by ring
            omega
          have := Nat.lt_of_mul_lt_mul_left hlt
          omega
        have hdiv : i / npm = k := by rw [hk, Nat.mul_div_cancel_left _ hnpm]
        have hpred : (i - 1) / npm = k - 1 := by
          have := pred_div_add_one_of_dvd npm i hnpm (by omega) hmod
          omega
        have hcomm : committeeOfIdx npm m i = k := by
          unfold committeeOfIdx
          rw [hdiv]
          omega
        have hT : ¬(i ≠ 0 ∧ i % npm = 0 ∧ i = n - rest) := by
          intro hcon
          exact hlast hcon.2.2
        have he : entryOf n npm rest m i = (k, goIsHonest i npm k) := by
          unfold entryOf tnpmOf
          rw [if_neg hT, hcomm]
        have hmin : min ((i - 1) / npm) (m - 1) = k - 1 := by
          rw [hpred]
          omega
        rw [assignNode, if_pos ⟨h0, hmod⟩, if_pos hlast, hmin,
          show k - 1 + 1 = k from by omega, if_pos (show k < m by omega), he, hcomm]
    · -- interior of a block: cursor and block size unchanged
      have hpred : (i - 1) / npm = i / npm := pred_div_eq_of_mod_ne npm i hnpm hmod
      have hcomm : committeeOfIdx npm m i = min ((i - 1) / npm) (m - 1) := by
        unfold committeeOfIdx
        rw [hpred]
      have hA : ¬(i ≠ 0 ∧ i % npm = 0) := by
        intro hcon
        exact hmod hcon.2
      have hT : ¬(i ≠ 0 ∧ i % npm = 0 ∧ i = n - rest) := by
        intro hcon
        exact hmod hcon.2.1
      have he : entryOf n npm rest m i =
          (min ((i - 1) / npm) (m - 1),
            goIsHonest i npm (min ((i - 1) / npm) (m - 1))) := by
        unfold entryOf tnpmOf
        rw [if_neg hT, hcomm]
      rw [assignNode, if_neg hA,
        if_pos (show min ((i - 1) / npm) (m - 1) < m by
          have := Nat.min_le_right ((i - 1) / npm) (m - 1)
          omega), he, hcomm]

theorem assignLoop_char (n m npm rest : Nat) (hm : 0 < m) (hnpm : 0 < npm)
    (hr : rest ≤ npm) (hn : n = m * npm + rest) :
    ∀ fuel i, i + fuel = n →
      assignLoop n npm rest m (min ((i - 1) / npm) (m - 1)) i fuel =
        some ((List.range' i fuel).map (entryOf n npm rest m)) := by
  intro fuel
  induction fuel with
  | zero => intro i hi; rfl
  | succ fuel ih =>
    intro i hi
    have hilt : i < n := by omega
    have hrec : committeeOfIdx npm m i = min ((i + 1 - 1) / npm) (m - 1) := by
      unfold committeeOfIdx
      rw [Nat.add_sub_cancel]
    rw [show List.range' i (fuel + 1) = i :: List.range' (i + 1) fuel from rfl,
      List.map_cons]
    rw [assignLoop, assignNode_char n m npm rest hm hnpm hr hn i hilt]
    show (assignLoop n npm rest m (committeeOfIdx npm m i) (i + 1) fuel).map
        (fun l => entryOf n npm rest m i :: l) = _
    rw [hrec, ih (i + 1) (by omega)]
    rw [Option.map_some']

theorem coordinatorAssign_char (n m : Nat) (hm : 0 < m) (hmn : m ≤ n)
    (hr : n % m ≤ n / m) :
    coordinatorAssign n m =
      some ((List.range n).map (entryOf n (n / m) (n % m) m)) := by
  have hnpm : 0 < n / m := Nat.div_pos hmn hm
  have hn : n = m * (n / m) + n % m := by
    have := Nat.div_add_mod n m
    omega
  have hch := assignLoop_char n m (n / m) (n % m) hm hnpm hr hn n 0 (by omega)
  rw [show min ((0 - 1) / (n / m)) (m - 1) = 0 from by
    rw [Nat.zero_sub, Nat.zero_div, Nat.zero_min]] at hch
  rw [coordinatorAssign, hch, List.range_eq_range']

/-! ## Per-committee adversary counts -/

theorem goF_nonneg (t c : Nat) (ht : 0 < t) : 0 ≤ goF t c := by
  unfold goF cDiv
  by_cases hc : c % 2 = 0
  · simp only [hc, if_true]
    norm_num
    split
    · rename_i h
      have h2 : 2 ≤ t := by omega
      have h3 : 1 ≤ t / 2 := by omega
      omega
    · omega
  · simp only [hc, if_false]
    norm_num
    split
    · rename_i h
      have h2 : 6 ≤ t := by omega
      have h3 : 1 ≤ t / 6 := by omega
      omega
    · omega

theorem goF_toNat_le (t c : Nat) : (goF t c).toNat ≤ t := by
  unfold goF cDiv
  by_cases hc : c % 2 = 0
  · simp only [hc, if_true]
    norm_num
    have := Nat.div_le_self t 2
    split <;> omega
  · simp only [hc, if_false]
    norm_num
    have := Nat.div_le_self t 6
    split <;> omega

theorem countP_range_int_lt (N : Nat) (F : Int) :
    (List.range N).countP (fun (p : Nat) => decide ((p : Int) < F)) = min F.toNat N := by
  induction N with
  | zero => simp
  | succ N ih =>
    rw [List.range_succ, List.countP_append, ih]
    simp only [List.countP_cons, List.countP_nil]
    by_cases h : (N : Int) < F
    · rw [if_pos (show (fun (p : Nat) => decide ((p : Int) < F)) N = true
        from decide_eq_true h)]
      omega
    · rw [if_neg (show ¬(fun (p : Nat) => decide ((p : Int) < F)) N = true
        from by simp only [decide_eq_true_eq]; exact h)]
      omega

theorem entryOf_fst_lt_of_before (n npm rest m c : Nat) (hnpm : 0 < npm)
    (j : Nat) (hj : j < c * npm) : (entryOf n npm rest m j).1 ≠ c := by
  unfold entryOf committeeOfIdx
  have h1 : j / npm < c := by
    rw [Nat.div_lt_iff_lt_mul hnpm]
    exact hj
  have h2 := Nat.min_le_left (j / npm) (m - 1)
  simp only
  omega

theorem entryOf_fst_gt_of_after (n npm rest m c : Nat) (hm : 0 < m)
    (hnpm : 0 < npm) (hn : n = m * npm + rest) (hc : c < m)
    (hside : rest = 0 ∨ c + 1 < m) (j : Nat) (hj : (c + 1) * npm ≤ j)
    (hjn : j < n) : (entryOf n npm rest m j).1 ≠ c := by
  unfold entryOf committeeOfIdx
  have h1 : c + 1 ≤ j / npm := by
    rw [Nat.le_div_iff_mul_le hnpm]
    exact hj
  simp only
  rcases hside with h | h
  · have h2 : j / npm < m := by
      rw [Nat.div_lt_iff_lt_mul hnpm]
      omega
    omega
  · omega

theorem entryOf_block (n npm rest m c : Nat) (hm : 0 < m) (hnpm : 0 < npm)
    (hn : n = m * npm + rest) (hc : c < m) (p : Nat) (hp : p < npm) :
    entryOf n npm rest m (c * npm + p) =
      (c, !(decide ((p : Int) < goF npm c))) := by
  have hdiv : (c * npm + p) / npm = c := by
    rw [Nat.mul_comm c npm, Nat.mul_add_div hnpm, Nat.div_eq_of_lt hp, Nat.add_zero]
  have hmod : (c * npm + p) % npm = p := by
    rw [Nat.mul_comm c npm, Nat.mul_add_mod, Nat.mod_eq_of_lt hp]
  have hcomm : committeeOfIdx npm m (c * npm + p) = c := by
    unfold committeeOfIdx
    rw [hdiv]
    omega
  have hne : c * npm + p ≠ n - rest := by
    have hnr : n - rest = m * npm := by omega
    have h1 : (c + 1) * npm = c * npm + npm := by ring
    have h2 : (c + 1) * npm ≤ m * npm := Nat.mul_le_mul_right npm (by omega)
    omega
  have hT : ¬(c * npm + p ≠ 0 ∧ (c * npm + p) % npm = 0 ∧ c * npm + p = n - rest) := by
    intro hcon
    exact hne hcon.2.2
  unfold entryOf tnpmOf goIsHonest
  rw [if_neg hT, hcomm, hmod]
  have hz : (npm == 0) = false := by
    simp only [beq_eq_false_iff_ne, ne_eq]
    omega
  rw [hz, Bool.false_or]

theorem committee_counts (n m c : Nat) (hm : 0 < m) (hmn : m ≤ n)
    (hr : n % m ≤ n / m) (hc : c < m) (hside : n % m = 0 ∨ c + 1 < m)
    (out : List (Nat × Bool)) (hout : coordinatorAssign n m = some out) :
    advCount out c = (goF (n / m) c).toNat ∧ commCount out c = n / m := by
  have hnpm : 0 < n / m := Nat.div_pos hmn hm
  have hn : n = m * (n / m) + n % m := by
    have := Nat.div_add_mod n m
    omega
  have hch := coordinatorAssign_char n m hm hmn hr
  rw [hout] at hch
  have hEq : out = (List.range n).map (entryOf n (n / m) (n % m) m) :=
    Option.some.inj hch
  subst hEq
  have hble : (c + 1) * (n / m) ≤ n := by
    have h1 : (c + 1) * (n / m) ≤ m * (n / m) := Nat.mul_le_mul_right _ (by omega)
    omega
  have hsplit : n = c * (n / m) + (n / m) + (n - (c + 1) * (n / m)) := by
    have h1 : (c + 1) * (n / m) = c * (n / m) + (n / m) := by ring
    omega
  have hranges : List.range n =
      List.range (c * (n / m)) ++
        (List.range (n / m)).map (fun x => c * (n / m) + x) ++
        (List.range (n - (c + 1) * (n / m))).map
          (fun x => c * (n / m) + (n / m) + x) := by
    conv_lhs => rw [hsplit]
    rw [List.range_add, List.range_add]
  have hafter : ∀ j, (c + 1) * (n / m) ≤ j → j < n →
      (entryOf n (n / m) (n % m) m j).1 ≠ c := by
    intro j h1 h2
    exact entryOf_fst_gt_of_after n (n / m) (n % m) m c hm hnpm hn hc hside j h1 h2
  constructor
  · unfold advCount
    rw [List.countP_map]
    rw [hranges, List.countP_append, List.countP_append,
      List.countP_map, List.countP_map]
    have hA : (List.range (c * (n / m))).countP
        ((fun e => e.1 == c && !e.2) ∘ entryOf n (n / m) (n % m) m) = 0 := by
      rw [List.countP_eq_zero]
      intro j hj
      rw [List.mem_range] at hj
      have := entryOf_fst_lt_of_before n (n / m) (n % m) m c hnpm j hj
      simp only [Function.comp_apply, Bool.and_eq_true, beq_iff_eq]
      tauto
    have hC : (List.range (n - (c + 1) * (n / m))).countP
        (((fun e => e.1 == c && !e.2) ∘ entryOf n (n / m) (n % m) m) ∘
          fun x => c * (n / m) + (n / m) + x) = 0 := by
      rw [List.countP_eq_zero]
      intro j hj
      rw [List.mem_range] at hj
      have h1 : (c + 1) * (n / m) ≤ c * (n / m) + (n / m) + j := by
        have : (c + 1) * (n / m) = c * (n / m) + (n / m) := by ring
        omega
      have h2 : c * (n / m) + (n / m) + j < n := by
        have : (c + 1) * (n / m) = c * (n / m) + (n / m) := by ring
        omega
      have := hafter _ h1 h2
      simp only [Function.comp_apply, Bool.and_eq_true, beq_iff_eq]
      tauto
    have hB : (List.range (n / m)).countP
        (((fun e => e.1 == c && !e.2) ∘ entryOf n (n / m) (n % m) m) ∘
          fun x => c * (n / m) + x) = (goF (n / m) c).toNat := by
      have hcong : ∀ p ∈ List.range (n / m),
          ((((fun e => e.1 == c && !e.2) ∘ entryOf n (n / m) (n % m) m) ∘
            fun x => c * (n / m) + x) p = true) ↔
          ((fun (p : Nat) => decide ((p : Int) < goF (n / m) c)) p = true) := by
        intro p hp
        rw [List.mem_range] at hp
        simp only [Function.comp_apply,
          entryOf_block n (n / m) (n % m) m c hm hnpm hn hc p hp]
        simp
      rw [List.countP_congr hcong, countP_range_int_lt]
      have h1 := goF_toNat_le (n / m) c
      omega
    rw [hA, hB, hC]
    omega
  · unfold commCount
    rw [List.countP_map]
    rw [hranges, List.countP_append, List.countP_append,
      List.countP_map, List.countP_map]
    have hA : (List.range (c * (n / m))).countP
        ((fun e => e.1 == c) ∘ entryOf n (n / m) (n % m) m) = 0 := by
      rw [List.countP_eq_zero]
      intro j hj
      rw [List.mem_range] at hj
      have := entryOf_fst_lt_of_before n (n / m) (n % m) m c hnpm j hj
      simp only [Function.comp_apply, beq_iff_eq]
      tauto
    have hC : (List.range (n - (c + 1) * (n / m))).countP
        (((fun e => e.1 == c) ∘ entryOf n (n / m) (n % m) m) ∘
          fun x => c * (n / m) + (n / m) + x) = 0 := by
      rw [List.countP_eq_zero]
      intro j hj
      rw [List.mem_range] at hj
      have h1 : (c + 1) * (n / m) ≤ c * (n / m) + (n / m) + j := by
        have : (c + 1) * (n / m) = c * (n / m) + (n / m) := by ring
        omega
      have h2 : c * (n / m) + (n / m) + j < n := by
        have : (c + 1) * (n / m) = c * (n / m) + (n / m) := by ring
        omega
      have := hafter _ h1 h2
      simp only [Function.comp_apply, beq_iff_eq]
      tauto
    have hB : (List.range (n / m)).countP
        (((fun e => e.1 == c) ∘ entryOf n (n / m) (n % m) m) ∘
          fun x => c * (n / m) + x) = n / m := by
      have hcong : ∀ p ∈ List.range (n / m),
          ((((fun e => e.1 == c) ∘ entryOf n (n / m) (n % m) m) ∘
            fun x => c * (n / m) + x) p = true) ↔
          ((fun _ => true) p = true) := by
        intro p hp
        rw [List.mem_range] at hp
        simp only [Function.comp_apply,
          entryOf_block n (n / m) (n % m) m c hm hnpm hn hc p hp]
        simp
      rw [List.countP_congr hcong, List.countP_true, List.length_range]
    rw [hA, hB, hC]
    omega

/-! ## Concrete assignment outputs used by witnesses and counterexamples -/

/-- The tagged node list the assignment pass produces for N=12, M=3. -/
def assignOut12 : List (Nat × Bool) :=
  [(0, false), (0, true), (0, true), (0, true), (1, true), (1, true), (1, true),
    (1, true), (2, false), (2, true), (2, true), (2, true)]

/-- The tagged node list the assignment pass produces for N=11, M=3. -/
def assignOut11 : List (Nat × Bool) :=
  [(0, false), (0, true), (0, true), (1, true), (1, true), (1, true), (2, false),
    (2, true), (2, true), (2, true), (2, true)]

/-- The tagged node list the assignment pass produces for N=7, M=3. -/
def assignOut7 : List (Nat × Bool) :=
  [(0, true), (0, true), (1, true), (1, true), (2, true), (2, true), (2, false)]

/-! ## Claim theorems -/

/-- Claim C1: the committee-assignment pass does NOT partition the nodes for
every N ≥ M > 0 — whenever the remainder N mod M exceeds floor(N/M) the loop
increments the committee cursor past M-1 and indexes the length-M committee
slice out of range, a runtime panic, here shown at N=5, M=3 (npm=1, rest=2):
at node index 4 the cursor reaches 3 and `committees[3]` panics.  The claim
(and the code's own comment, which says a rest is put into the last
committee) states the intended behaviour; the code is the slip. -/
theorem coordinator_assign_panics_on_large_remainder :
    coordinatorAssign 5 3 = none := by decide

/-- Claim C2 (amended): for every committee all of whose members were
assigned with the quotient block size floor(N/M) — every committee when
M ∣ N, and every non-final committee otherwise — the adversary count equals
`f = floor(size/divisor)` with divisor 2 for even and 6 for odd committee
indices, decremented by one exactly when the size is divisible by the
divisor (`goF`); and the N=12, M=3 example holds: committee 0 has 1
adversarial + 3 honest members, committee 1 has 0 adversarial + 4 honest. -/
theorem committee_adv_count_formula :
    (∀ n m c out, 0 < m → m ≤ n → n % m ≤ n / m → c < m →
      (n % m = 0 ∨ c + 1 < m) → coordinatorAssign n m = some out →
      advCount out c = (goF (n / m) c).toNat ∧ commCount out c = n / m) ∧
    coordinatorAssign 12 3 = some assignOut12 ∧
    advCount assignOut12 0 = 1 ∧ commCount assignOut12 0 = 4 ∧
    advCount assignOut12 1 = 0 ∧ commCount assignOut12 1 = 4 := by
  refine ⟨?_, by decide, by decide, by decide, by decide, by decide⟩
  intro n m c out hm hmn hr hc hside hout
  exact committee_counts n m c hm hmn hr hc hside out hout

/-- Witness for C2: the amended formula evaluated at N=12, M=3, committee 0. -/
theorem committee_adv_count_formula_witness :
    ((0 : Nat) < 3 ∧ 3 ≤ 12 ∧ 12 % 3 ≤ 12 / 3 ∧ 0 < 3 ∧ 12 % 3 = 0 ∧
      coordinatorAssign 12 3 = some assignOut12) ∧
    advCount assignOut12 0 = (goF (12 / 3) 0).toNat ∧
    commCount assignOut12 0 = 12 / 3 :=
  ⟨⟨by decide, by decide, by decide, by decide, by decide, by decide⟩,
    committee_adv_count_formula.1 12 3 0 assignOut12 (by decide) (by decide)
      (by decide) (by decide) (Or.inl (by decide)) (by decide)⟩

/-- Counterexample to C2 as stated: at N=11, M=3 the final committee has 5
members but only 1 adversary, while the claimed formula
`floor(5/2) = 2` (committee index 2 is even, no decrement since 5 is odd)
demands 2. -/
theorem committee_adv_count_formula_cx :
    coordinatorAssign 11 3 = some assignOut11 ∧
    commCount assignOut11 2 = 5 ∧ advCount assignOut11 2 = 1 ∧
    (goF 5 2).toNat = 2 ∧ (1 : Nat) ≠ 2 := by decide

/-- Claim C6: the aggregate adversary bound is NOT enforced.  The guard of
line 385 compares `n/checkTotalF < 1/totalF` in integer arithmetic, where
`1/totalF = 0`, so it can never fire: at N=10, M=1, totalF=3, committeeF=2
the verification pass completes with `ok` although the aggregate adversary
fraction is 4/10 > 1/3 (i.e. 1*10 < 4*3).  The claim describes the intended
check; the integer division makes the code's check dead. -/
theorem aggregate_adversary_check_never_fires :
    coordinatorVerify 10 1 3 2 = VerifyResult.ok ∧
    totalAdvOf 10 1 = some 4 ∧ 1 * 10 < 4 * 3 := by decide

/-- Claim C7 (amended): within every committee all of whose members were
assigned with block size floor(N/M) — every committee when M ∣ N, every
non-final one otherwise — the member at intra-committee position p (global
index c*floor(N/M)+p) is flagged adversarial exactly when p < f (the
committee's computed adversary count `goF`), and honest otherwise. -/
theorem committee_first_f_adversarial (n m c p : Nat) (out : List (Nat × Bool))
    (hm : 0 < m) (hmn : m ≤ n) (hr : n % m ≤ n / m) (hc : c < m)
    (hp : p < n / m) (hside : n % m = 0 ∨ c + 1 < m)
    (hout : coordinatorAssign n m = some out) :
    ((p : Int) < goF (n / m) c → out[c * (n / m) + p]? = some (c, false)) ∧
    (¬(p : Int) < goF (n / m) c → out[c * (n / m) + p]? = some (c, true)) := by
  have hnpm : 0 < n / m := Nat.div_pos hmn hm
  have hn : n = m * (n / m) + n % m := by
    have := Nat.div_add_mod n m
    omega
  have hch := coordinatorAssign_char n m hm hmn hr
  rw [hout] at hch
  have hEq : out = (List.range n).map (entryOf n (n / m) (n % m) m) :=
    Option.some.inj hch
  subst hEq
  have hidx : c * (n / m) + p < n := by
    have h1 : (c + 1) * (n / m) = c * (n / m) + (n / m) := by ring
    have h2 : (c + 1) * (n / m) ≤ m * (n / m) := Nat.mul_le_mul_right _ (by omega)
    omega
  have hget : ((List.range n).map (entryOf n (n / m) (n % m) m))[c * (n / m) + p]? =
      some (entryOf n (n / m) (n % m) m (c * (n / m) + p)) := by
    rw [List.getElem?_map, List.getElem?_range hidx, Option.map_some']
  rw [hget, entryOf_block n (n / m) (n % m) m c hm hnpm hn hc p hp]
  constructor
  · intro h
    rw [decide_eq_true h]
    rfl
  · intro h
    rw [decide_eq_false h]
    rfl

/-- Witness for C7: N=12, M=3, committee 0, positions 0 (adversarial,
0 < f = 1) and 1 would be honest; instantiated at p = 0. -/
theorem committee_first_f_adversarial_witness :
    ((0 : Nat) < 3 ∧ 3 ≤ 12 ∧ 12 % 3 ≤ 12 / 3 ∧ 0 < 3 ∧ (0 : Nat) < 12 / 3 ∧
      12 % 3 = 0 ∧ coordinatorAssign 12 3 = some assignOut12) ∧
    (((0 : Nat) : Int) < goF (12 / 3) 0 →
      assignOut12[0 * (12 / 3) + 0]? = some (0, false)) ∧
    (¬((0 : Nat) : Int) < goF (12 / 3) 0 →
      assignOut12[0 * (12 / 3) + 0]? = some (0, true)) :=
  ⟨⟨by decide, by decide, by decide, by decide, by decide, by decide, by decide⟩,
    committee_first_f_adversarial 12 3 0 0 assignOut12 (by decide) (by decide)
      (by decide) (by decide) (by decide) (Or.inl (by decide)) (by decide)⟩

/-- Counterexample to C7 as stated: at N=7, M=3 the last committee
{indices 4,5,6} has adversary count 1, but its first member (intra-committee
position 0, global index 4) is honest while the member at position 2 (global
index 6) is the adversarial one — the adversaries are not the first f
positions. -/
theorem committee_first_f_adversarial_cx :
    coordinatorAssign 7 3 = some assignOut7 ∧
    advCount assignOut7 2 = 1 ∧
    assignOut7[4]? = some (2, true) ∧ assignOut7[6]? = some (2, false) := by decide

/-- Claim C10: at the valid parameters N=4, M=2 (N/M = 2 ≠ 1) every
committee's computed adversary count is 0, so `checkTotalF = 0` and the
aggregate verification's `int(flagArgs.n)/checkTotalF` is an integer
division by zero: the bootstrap panics. -/
theorem total_adversary_zero_division_panic :
    totalAdvOf 4 2 = some 0 ∧ 4 / 2 ≠ 1 ∧
    coordinatorVerify 4 2 3 2 = VerifyResult.panic := by decide

/-- Helper: `addEnd` reports the authoritative write exactly when the end
field was still the zero sentinel. -/
theorem addEnd_snd_iff (r : Routetxresults) (t : Nat) :
    (r.addEnd t).2 = true ↔ r.endT = 0 := by
  unfold Routetxresults.addEnd
  by_cases h : r.endT = 0 <;> simp [h]

/-- Helper: the ensure-then-get pattern of the tracker maps yields the
existing record, or a fresh one. -/
theorem mapEnsure_self {A : Type} (mp : List Nat → Option A) (k : List Nat)
    (fresh : A) : mapEnsure mp k fresh k = some ((mp k).getD fresh) := by
  simp [mapEnsure]

/-- Reduction of the dispatcher on the `start_ida_gossip` tag. -/
theorem dispatch_start_ida_eq (st : DispState) (b : List Nat) (t : Nat) :
    dispatch st ⟨"start_ida_gossip", Payload.bat b t⟩ =
      some { st with idaMap := fun k => (if k = toByte32 b
        then some { (((mapEnsure st.idaMap (toByte32 b) emptyIda) (toByte32 b)).getD
          emptyIda) with start := t }
        else (mapEnsure st.idaMap (toByte32 b) emptyIda) k) } := rfl

/-- Reduction of the dispatcher on the (misspelled) `transaction_recieved`
tag of line 499. -/
theorem dispatch_trans_recieved_eq (st : DispState) (b : List Nat) (t : Nat) :
    dispatch st ⟨"transaction_recieved", Payload.bat b t⟩ =
      (if ((((mapEnsure st.routeMap (toByte32 b) emptyRoute)
          (toByte32 b)).getD emptyRoute).addEnd t).2 then
        some { st with
          routeMap := fun k => (if k = toByte32 b
            then some ((((mapEnsure st.routeMap (toByte32 b) emptyRoute)
              (toByte32 b)).getD emptyRoute).addEnd t).1
            else (mapEnsure st.routeMap (toByte32 b) emptyRoute) k),
          sinks := st.sinks ++
            [(3, SinkEntry.route ((((mapEnsure st.routeMap (toByte32 b) emptyRoute)
              (toByte32 b)).getD emptyRoute).addEnd t).1)] }
      else
        some { st with
          routeMap := fun k => (if k = toByte32 b
            then some ((((mapEnsure st.routeMap (toByte32 b) emptyRoute)
              (toByte32 b)).getD emptyRoute).addEnd t).1
            else (mapEnsure st.routeMap (toByte32 b) emptyRoute) k) }) := rfl

/-- Reduction of the dispatcher on the `consensus_accept_fail` tag. -/
theorem dispatch_accept_fail_eq (st : DispState) (b : List Nat) (t : Nat) :
    dispatch st ⟨"consensus_accept_fail", Payload.bat b t⟩ =
      if b.length = 88 then
        some { st with sinks := st.sinks ++
          [(5, SinkEntry.acceptFail (b.take 32) ((b.drop 32).take 32)
              (leU64 ((b.drop 64).take 8)) (toInt64 (leU64 ((b.drop 72).take 8)))
              (toInt64 (leU64 ((b.drop 80).take 8))))] }
      else none := rfl

/-- Claim C3 (amended): the IDA-gossip tracker's markStart
(`start_ida_gossip` handler, which assigns `ida.start = bat.T`
unconditionally) is last-write-wins, not first-write-wins: after a first
markStart(id, t1) the stored start is t1, and a second markStart(id, t2)
overwrites it, leaving t2. -/
theorem ida_markStart_last_write_wins (st : DispState) (b : List Nat) (t1 t2 : Nat) :
    ((dispatch st ⟨"start_ida_gossip", Payload.bat b t1⟩).map
        (fun s1 => (s1.idaMap (toByte32 b)).map (fun r => r.start)) =
      some (some t1)) ∧
    (((dispatch st ⟨"start_ida_gossip", Payload.bat b t1⟩).bind
        (fun s1 => dispatch s1 ⟨"start_ida_gossip", Payload.bat b t2⟩)).map
        (fun s2 => (s2.idaMap (toByte32 b)).map (fun r => r.start)) =
      some (some t2)) := by
  constructor
  · rw [dispatch_start_ida_eq st b t1, mapEnsure_self]
    simp
  · rw [dispatch_start_ida_eq st b t1]
    rw [Option.some_bind]
    rw [dispatch_start_ida_eq _ b t2]
    simp [mapEnsure]

/-- Counterexample to C3 as stated: two markStart calls with t1 = 1, t2 = 2
on a fresh tracker leave the stored start equal to 2, not to the first
write 1. -/
theorem ida_markStart_first_write_cx :
    ((dispatch initState ⟨"start_ida_gossip", Payload.bat (List.replicate 32 0) 1⟩).bind
        (fun s1 => dispatch s1 ⟨"start_ida_gossip", Payload.bat (List.replicate 32 0) 2⟩)).map
        (fun s2 => (s2.idaMap (toByte32 (List.replicate 32 0))).map (fun r => r.start)) =
      some (some 2) ∧ (2 : Nat) ≠ 1 := by decide

/-- Claim C4: the shuffle-and-assign pass is a pure function of the PRNG
stream derived from the seed, the node list and the parameters: two runs
with the same seed (hence the same draw stream) and inputs produce identical
committee memberships and honesty flags.  The wall-clock reseed of line 300
is modelled as the seed input itself; no other nondeterminism exists in the
pass. -/
theorem coordinatorRun_deterministic {A : Type} (streamOfSeed : Nat → Nat → Nat)
    (seed1 seed2 : Nat) (nodes : List A) (m : Nat) (h : seed1 = seed2) :
    coordinatorRun (streamOfSeed seed1) nodes m =
      coordinatorRun (streamOfSeed seed2) nodes m := by
  rw [h]

/-- Witness for C4: a concrete seed-to-stream function, seed 1337, four
nodes, two committees. -/
theorem coordinatorRun_deterministic_witness :
    (1337 : Nat) = 1337 ∧
    coordinatorRun ((fun s k => s + 31 * k) 1337) [10, 20, 30, 40] 2 =
      coordinatorRun ((fun s k => s + 31 * k) 1337) [10, 20, 30, 40] 2 :=
  ⟨rfl, coordinatorRun_deterministic (fun s k => s + 31 * k) 1337 1337
    [10, 20, 30, 40] 2 rfl⟩

/-- Claim C5 (amended): the tag the dispatcher handles is the literal
(misspelled) `transaction_recieved`: for it, the route-tx tracker's markEnd
(`addEnd`) is invoked with the carried id and timestamp, the updated record
is stored, and exactly when that end-write is authoritative (the previous
end timestamp was unset) the record is flushed to sink #4 (files[3]); the
correctly spelled `transaction_received` hits the default arm and is a
fatal unrecognized tag. -/
theorem dispatch_transaction_recieved_spec :
    (∀ st b t, dispatch st ⟨"transaction_received", Payload.bat b t⟩ = none) ∧
    (∀ (st : DispState) (b : List Nat) (t : Nat),
      (dispatch st ⟨"transaction_recieved", Payload.bat b t⟩).map
          (fun s => s.routeMap (toByte32 b)) =
        some (some (((st.routeMap (toByte32 b)).getD emptyRoute).addEnd t).1) ∧
      (dispatch st ⟨"transaction_recieved", Payload.bat b t⟩).map (fun s => s.sinks) =
        some (if (((st.routeMap (toByte32 b)).getD emptyRoute).addEnd t).2 then
            st.sinks ++
              [(3, SinkEntry.route
                (((st.routeMap (toByte32 b)).getD emptyRoute).addEnd t).1)]
          else st.sinks) ∧
      ((((st.routeMap (toByte32 b)).getD emptyRoute).addEnd t).2 = true ↔
        ((st.routeMap (toByte32 b)).getD emptyRoute).endT = 0)) := by
  constructor
  · intro st b t
    rfl
  · intro st b t
    refine ⟨?_, ?_, addEnd_snd_iff _ _⟩ <;>
      rw [dispatch_trans_recieved_eq st b t, mapEnsure_self] <;>
        by_cases h : (((st.routeMap (toByte32 b)).getD emptyRoute).addEnd t).2 = true <;>
          simp [h, Option.getD_some]

/-- Counterexample to C5 as stated: the spec's spelling
`transaction_received` is treated as an unrecognized tag (fatal, `none`),
while the misspelled `transaction_recieved` is the one that succeeds. -/
theorem dispatch_transaction_received_fatal_cx :
    dispatch initState ⟨"transaction_received", Payload.bat (List.replicate 32 1) 5⟩ =
      none ∧
    (dispatch initState
        ⟨"transaction_recieved", Payload.bat (List.replicate 32 1) 5⟩).isSome = true :=
  ⟨rfl, rfl⟩

/-- Claim C8 (amended): for the route-tx tracker, markStart is
first-write-wins for every start timestamp t1 that is not the Go zero
`time.Time` (the `IsZero` sentinel the code uses for "unset"): the first
call is authoritative (true), a second call with any t2 is not (false), and
the stored start remains t1. -/
theorem routetx_addStart_first_write_wins (r : Routetxresults) (t1 t2 : Nat)
    (h0 : r.start = 0) (h1 : t1 ≠ 0) :
    (r.addStart t1).2 = true ∧ ((r.addStart t1).1.addStart t2).2 = false ∧
      ((r.addStart t1).1.addStart t2).1.start = t1 := by
  unfold Routetxresults.addStart
  simp [h0, h1]

/-- Witness for C8: a fresh record, t1 = 5, t2 = 9. -/
theorem routetx_addStart_first_write_wins_witness :
    (({} : Routetxresults).start = 0 ∧ (5 : Nat) ≠ 0) ∧
    ((({} : Routetxresults).addStart 5).2 = true ∧
      ((({} : Routetxresults).addStart 5).1.addStart 9).2 = false ∧
      ((({} : Routetxresults).addStart 5).1.addStart 9).1.start = 5) :=
  ⟨⟨rfl, by decide⟩, routetx_addStart_first_write_wins {} 5 9 rfl (by decide)⟩

/-- Counterexample to C8 as stated: with t1 the Go zero time (the sentinel
itself), the first write stores the sentinel back, so the second call is
also authoritative (returns true, where the claim demands false) and the
stored start becomes t2 = 7. -/
theorem routetx_addStart_zero_time_cx :
    ((({} : Routetxresults).addStart 0).1.addStart 7).2 = true ∧
    ((({} : Routetxresults).addStart 0).1.addStart 7).1.start = 7 := by decide

/-- Claim C9: a `consensus_accept_fail` payload whose length differs from 88
is fatal — the handler returns no state, so nothing is written to any sink
and no field is parsed; a payload of exactly 88 bytes is parsed as
committeeId = bytes 0-31, pubkeyId = bytes 32-63, iteration = LE u64 at
bytes 64-71, totalVotes = bytes 72-79 and received = bytes 80-87 (as
int64), and the record is appended to sink #6 (files[5]). -/
theorem consensus_accept_fail_parse_spec :
    (∀ st b t, b.length ≠ 88 →
      dispatch st ⟨"consensus_accept_fail", Payload.bat b t⟩ = none) ∧
    (∀ (st : DispState) (b : List Nat) (t : Nat), b.length = 88 →
      dispatch st ⟨"consensus_accept_fail", Payload.bat b t⟩ =
        some { st with sinks := st.sinks ++
          [(5, SinkEntry.acceptFail (b.take 32) ((b.drop 32).take 32)
              (leU64 ((b.drop 64).take 8)) (toInt64 (leU64 ((b.drop 72).take 8)))
              (toInt64 (leU64 ((b.drop 80).take 8))))] }) := by
  constructor
  · intro st b t h
    rw [dispatch_accept_fail_eq, if_neg h]
  · intro st b t h
    rw [dispatch_accept_fail_eq, if_pos h]

/-- The 88-byte payload used by the C9 witness. -/
def afPayload : List Nat := List.replicate 88 2

/-- Witness for C9: the empty payload is rejected; an 88-byte payload is
parsed and appended to sink index 5. -/
theorem consensus_accept_fail_parse_witness :
    (([] : List Nat).length ≠ 88 ∧
      dispatch initState ⟨"consensus_accept_fail", Payload.bat [] 0⟩ = none) ∧
    (afPayload.length = 88 ∧
      dispatch initState ⟨"consensus_accept_fail", Payload.bat afPayload 0⟩ =
        some { initState with sinks := initState.sinks ++
          [(5, SinkEntry.acceptFail (afPayload.take 32) ((afPayload.drop 32).take 32)
              (leU64 ((afPayload.drop 64).take 8))
              (toInt64 (leU64 ((afPayload.drop 72).take 8)))
              (toInt64 (leU64 ((afPayload.drop 80).take 8))))] }) :=
  ⟨⟨by decide, consensus_accept_fail_parse_spec.1 initState [] 0 (by decide)⟩,
    ⟨by decide, consensus_accept_fail_parse_spec.2 initState afPayload 0 (by decide)⟩⟩

end RapidChain
